import Mathlib

/-!
# EASYSHEDULE — verification of the focus-timer state machine and CRUD handlers

Shallow embedding of the `FocusMode` React component (src/unnamed/part_000,
lines 827-937), the session recorder `handleFocusSessionComplete`
(lines 208-218), and the Express handlers of src/server.ts
(`PATCH /api/tasks/:id`, `PATCH /api/lectures/:id`, `GET /api/tasks`).

The component state is `timeLeft` (a JS number, modelled as `Int`),
`isActive : Bool` and `sessionType : 'work' | 'break'`.  Every state update
triggers a re-run of the `useEffect` whose dependencies are
`[isActive, timeLeft, sessionType, onSessionComplete]`; the effect either
(re)schedules the one-second interval (when `isActive && timeLeft > 0`),
or — when `timeLeft === 0` — runs the completion branch, or does nothing.
The interval callback exists only in states where the effect scheduled it,
because the effect cleanup (line 854) executes `clearInterval` on every
dependency change, so a tick delivered in any other state is a no-op.
-/

namespace EasySchedule

/-- The `sessionType` state of `FocusMode`: the TS union `'work' | 'break'`
(line 830).  `brk` embeds the string literal `'break'`. -/
inductive Mode : Type where
  | work : Mode
  | brk : Mode
deriving DecidableEq, Repr

/-- The full duration of a mode: `25 * 60` for work, `5 * 60` for break,
as hard-coded at lines 828, 847, 851, 863, 873, 879, 929. -/
def totalSeconds : Mode → Int
  | Mode.work => 25 * 60
  | Mode.brk => 5 * 60

/-- The first argument the completion branch passes to `onSessionComplete`:
`sessionType === 'work' ? 25 : 5` (line 841). -/
def durationMinutes : Mode → Int
  | Mode.work => 25
  | Mode.brk => 5

/-- The `useState` triple of `FocusMode` (lines 828-830). -/
structure TimerState : Type where
  timeLeft : Int
  isActive : Bool
  sessionType : Mode
deriving DecidableEq, Repr

/-- Initial state: `timeLeft = 25 * 60`, `isActive = false`,
`sessionType = 'work'` (lines 828-830). -/
def initState : TimerState :=
  { timeLeft := 25 * 60, isActive := false, sessionType := Mode.work }

/-- The `useEffect` body (lines 832-853), parameterised — as the component is
by its `onSessionComplete` prop — over the completion callback, whose results
are collected in the returned list.  When `isActive && timeLeft > 0` the
effect only schedules the interval (no state change, no event).  Otherwise,
when `timeLeft === 0`, the completion branch runs: `setIsActive(false)`, one
call `onSessionComplete(sessionType === 'work' ? 25 : 5, sessionType)`, then
the auto-advance `setSessionType`/`setTimeLeft` to the other mode's full
duration (lines 838-852).  In any other state the effect does nothing. -/
def runEffectWith {α : Type} (cb : Int → Mode → α) (s : TimerState) :
    TimerState × List α :=
  if s.isActive = true ∧ 0 < s.timeLeft then (s, [])
  else if s.timeLeft = 0 then
    let r := cb (durationMinutes s.sessionType) s.sessionType
    match s.sessionType with
    | Mode.work =>
        ({ timeLeft := totalSeconds Mode.brk, isActive := false,
           sessionType := Mode.brk }, [r])
    | Mode.brk =>
        ({ timeLeft := totalSeconds Mode.work, isActive := false,
           sessionType := Mode.work }, [r])
  else (s, [])

/-- A completion event as observed through the `onSessionComplete` prop:
the pair (duration minutes, mode) of line 841. -/
abbrev Event : Type := Int × Mode

/-- The effect with the observing callback that just records its arguments. -/
def runEffect (s : TimerState) : TimerState × List Event :=
  runEffectWith Prod.mk s

/-- One firing of the interval callback `setTimeLeft(timeLeft - 1)`
(lines 835-837), followed by the re-run of the effect on the updated state,
with the completion callback `cb`.  The interval is scheduled only in states
with `isActive && timeLeft > 0`; the effect cleanup (line 854) clears it on
every state change, so in any other state a delivered tick is a no-op. -/
def tickWith {α : Type} (cb : Int → Mode → α) (s : TimerState) :
    TimerState × List α :=
  if s.isActive = true ∧ 0 < s.timeLeft then
    runEffectWith cb { s with timeLeft := s.timeLeft - 1 }
  else (s, [])

/-- One tick with the observing callback. -/
def tick (s : TimerState) : TimerState × List Event :=
  tickWith Prod.mk s

/-- Pressing the start/pause control: `onClick={() => setIsActive(!isActive)}`
(line 920), followed by the effect re-run. -/
def pressStartPause (s : TimerState) : TimerState × List Event :=
  runEffect { s with isActive := !s.isActive }

/-- Pressing the mode button for `m`: `setSessionType(m); setTimeLeft(full);
setIsActive(false)` (lines 873 and 879), followed by the effect re-run. -/
def selectMode (m : Mode) (s : TimerState) : TimerState × List Event :=
  runEffect { s with sessionType := m, timeLeft := totalSeconds m,
                     isActive := false }

/-- Pressing the reset control: `setTimeLeft(full of current mode);
setIsActive(false)` (line 929), followed by the effect re-run. -/
def resetTimer (s : TimerState) : TimerState × List Event :=
  runEffect { s with timeLeft := totalSeconds s.sessionType,
                     isActive := false }

/-- Running `n` successive ticks, collecting the emitted events in order. -/
def run : Nat → TimerState → TimerState × List Event
  | 0, s => (s, [])
  | n + 1, s =>
      let p := tick s
      let q := run n p.1
      (q.1, p.2 ++ q.2)

/-- The state after `n` successive ticks. -/
def tickN : Nat → TimerState → TimerState
  | 0, s => s
  | n + 1, s => tickN n (tick s).1

/-- The states of `FocusMode` reachable from its initial state by user
interactions (start/pause press, mode select, reset) and interval ticks. -/
inductive Reachable : TimerState → Prop where
  | init : Reachable initState
  | press {s : TimerState} : Reachable s → Reachable (pressStartPause s).1
  | tickStep {s : TimerState} : Reachable s → Reachable (tick s).1
  | select (m : Mode) {s : TimerState} : Reachable s →
      Reachable (selectMode m s).1
  | reset {s : TimerState} : Reachable s → Reachable (resetTimer s).1

theorem totalSeconds_pos (m : Mode) : 1 ≤ totalSeconds m := by
  cases m <;> norm_num [totalSeconds]

/-- In every state with positive `timeLeft` the effect changes nothing and
emits nothing: it either just (re)schedules the interval or falls through
both branches. -/
theorem runEffectWith_pos {α : Type} (cb : Int → Mode → α) (s : TimerState)
    (h : 0 < s.timeLeft) : runEffectWith cb s = (s, []) := by
  have h0 : ¬s.timeLeft = 0 := by omega
  unfold runEffectWith
  by_cases hb : s.isActive = true ∧ 0 < s.timeLeft
  · simp [hb]
  · simp [hb, h0]

/-- At `timeLeft = 0` the effect runs the completion branch: one callback
invocation and the auto-advance to the opposite mode's idle state. -/
theorem runEffectWith_zero {α : Type} (cb : Int → Mode → α) (s : TimerState)
    (h : s.timeLeft = 0) :
    runEffectWith cb s =
      (match s.sessionType with
        | Mode.work =>
            ({ timeLeft := 300, isActive := false, sessionType := Mode.brk },
              [cb 25 Mode.work])
        | Mode.brk =>
            ({ timeLeft := 1500, isActive := false, sessionType := Mode.work },
              [cb 5 Mode.brk])) := by
  unfold runEffectWith
  cases hm : s.sessionType <;>
    simp [h, hm, durationMinutes, totalSeconds]

/-- Pressing the control in a state with positive `timeLeft` just flips
`isActive` and emits nothing. -/
theorem press_eq (s : TimerState) (h : 0 < s.timeLeft) :
    pressStartPause s = ({ s with isActive := !s.isActive }, []) := by
  rw [pressStartPause, runEffect]
  exact runEffectWith_pos _ _ h

/-- Selecting mode `m` lands in the idle state of `m` at full duration,
whatever the prior state, and emits nothing. -/
theorem selectMode_eq (m : Mode) (s : TimerState) :
    selectMode m s =
      ({ timeLeft := totalSeconds m, isActive := false, sessionType := m },
        []) := by
  rw [selectMode, runEffect]
  exact runEffectWith_pos _ _ (lt_of_lt_of_le Int.one_pos (totalSeconds_pos m))

/-- Resetting lands in the idle state of the current mode at full duration
and emits nothing. -/
theorem resetTimer_eq (s : TimerState) :
    resetTimer s =
      ({ s with timeLeft := totalSeconds s.sessionType, isActive := false },
        []) := by
  rw [resetTimer, runEffect]
  exact runEffectWith_pos _ _
    (lt_of_lt_of_le Int.one_pos (totalSeconds_pos s.sessionType))

/-- A tick in a running state with more than one second left just
decrements and emits nothing. -/
theorem tickWith_decr {α : Type} (cb : Int → Mode → α) (s : TimerState)
    (ha : s.isActive = true) (h : 1 < s.timeLeft) :
    tickWith cb s = ({ s with timeLeft := s.timeLeft - 1 }, []) := by
  rw [tickWith, if_pos ⟨ha, by omega⟩]
  exact runEffectWith_pos _ _ (by omega : (0:Int) < s.timeLeft - 1)

/-- The completing tick: in a running state with exactly one second left,
the decrement reaches 0 and the effect's completion branch fires — one
callback invocation, then the auto-advance. -/
theorem tickWith_complete {α : Type} (cb : Int → Mode → α) (s : TimerState)
    (ha : s.isActive = true) (h : s.timeLeft = 1) :
    tickWith cb s =
      (match s.sessionType with
        | Mode.work =>
            ({ timeLeft := 300, isActive := false, sessionType := Mode.brk },
              [cb 25 Mode.work])
        | Mode.brk =>
            ({ timeLeft := 1500, isActive := false, sessionType := Mode.work },
              [cb 5 Mode.brk])) := by
  rw [tickWith, if_pos ⟨ha, by omega⟩]
  exact runEffectWith_zero _ _ (by omega : (s.timeLeft - 1 : Int) = 0)

/-- A tick delivered in any state where the effect has no interval scheduled
(paused, or `timeLeft ≤ 0`) is a no-op. -/
theorem tickWith_noop {α : Type} (cb : Int → Mode → α) (s : TimerState)
    (h : ¬(s.isActive = true ∧ 0 < s.timeLeft)) :
    tickWith cb s = (s, []) := by
  rw [tickWith, if_neg h]

/-- The state invariant: `timeLeft` lies between 1 and the current mode's
full duration. -/
def Inv (s : TimerState) : Prop :=
  1 ≤ s.timeLeft ∧ s.timeLeft ≤ totalSeconds s.sessionType

theorem inv_initState : Inv initState := by
  constructor <;> norm_num [initState, totalSeconds]

theorem inv_press {s : TimerState} (h : Inv s) : Inv (pressStartPause s).1 := by
  rcases h with ⟨h1, h2⟩
  rw [press_eq s (by omega)]
  exact ⟨h1, h2⟩

theorem inv_tick {s : TimerState} (h : Inv s) : Inv (tick s).1 := by
  rcases h with ⟨h1, h2⟩
  by_cases ha : s.isActive = true
  · by_cases h0 : s.timeLeft = 1
    · rw [tick, tickWith_complete Prod.mk s ha h0]
      cases s.sessionType <;> exact ⟨by norm_num, by norm_num [totalSeconds]⟩
    · rw [tick, tickWith_decr Prod.mk s ha (by omega)]
      exact ⟨by dsimp; omega, by dsimp; omega⟩
  · rw [tick, tickWith_noop Prod.mk s (by tauto)]
    exact ⟨h1, h2⟩

theorem inv_selectMode (m : Mode) (s : TimerState) :
    Inv (selectMode m s).1 := by
  rw [selectMode_eq]
  exact ⟨totalSeconds_pos m, le_refl _⟩

theorem inv_resetTimer (s : TimerState) : Inv (resetTimer s).1 := by
  rw [resetTimer_eq]
  exact ⟨totalSeconds_pos s.sessionType, le_refl _⟩

/-- Every reachable state satisfies the invariant. -/
theorem reachable_inv {s : TimerState} (h : Reachable s) : Inv s := by
  induction h with
  | init => exact inv_initState
  | press _ ih => exact inv_press ih
  | tickStep _ ih => exact inv_tick ih
  | select m _ ih => exact inv_selectMode m _
  | reset _ ih => exact inv_resetTimer _

theorem run_succ (n : Nat) (s : TimerState) :
    run (n + 1) s =
      ((run n (tick s).1).1, (tick s).2 ++ (run n (tick s).1).2) := rfl

/-- As long as strictly more seconds remain than ticks are applied, a running
countdown only decrements: no completion event is emitted. -/
theorem run_noComplete (k : Nat) (s : TimerState) (ha : s.isActive = true)
    (h : (k : Int) < s.timeLeft) :
    run k s = ({ s with timeLeft := s.timeLeft - k }, []) := by
  induction k generalizing s with
  | zero =>
      show (s, []) = _
      norm_num
  | succ n ih =>
      have h1 : (1 : Int) < s.timeLeft := by push_cast at h; omega
      rw [run_succ, tick, tickWith_decr Prod.mk s ha h1]
      rw [ih { s with timeLeft := s.timeLeft - 1 } ha
        (by dsimp; push_cast at h ⊢; omega)]
      have e : s.timeLeft - 1 - (n : Int) = s.timeLeft - ((n : Nat) + 1 : Nat) := by
        push_cast
        ring
      dsimp
      rw [e]

/-- A single tick can only preserve or lower `timeLeft` while the state
stays running, and a state that is running after a tick was running
before it. -/
theorem tick_mono_step (s : TimerState) (h : (tick s).1.isActive = true) :
    s.isActive = true ∧ (tick s).1.timeLeft ≤ s.timeLeft := by
  rcases s with ⟨t, a, m⟩
  cases a
  · rw [tick, tickWith_noop Prod.mk _ (by simp)] at h
    simp at h
  · by_cases hp : 0 < t
    · by_cases h1 : t = 1
      · rw [tick, tickWith_complete Prod.mk _ rfl h1] at h
        cases m <;> simp at h
      · have hgt : (1 : Int) < t := by
          simpa using lt_of_le_of_ne (by omega) (Ne.symm h1)
        rw [tick, tickWith_decr Prod.mk _ rfl hgt]
        exact ⟨rfl, by dsimp; omega⟩
    · rw [tick, tickWith_noop Prod.mk _ (by simp [hp])]
      exact ⟨rfl, le_refl _⟩

/-- Over a run of ticks, if the final state is still running then the
initial state was running and `timeLeft` has not increased. -/
theorem tickN_mono (n : Nat) (s : TimerState)
    (h : (tickN n s).isActive = true) :
    s.isActive = true ∧ (tickN n s).timeLeft ≤ s.timeLeft := by
  induction n generalizing s with
  | zero => exact ⟨h, le_refl _⟩
  | succ k ih =>
      rcases ih (tick s).1 h with ⟨h1, h2⟩
      rcases tick_mono_step s h1 with ⟨h3, h4⟩
      exact ⟨h3, le_trans h2 h4⟩

theorem tickN_tick_comm (n : Nat) (s : TimerState) :
    tickN n (tick s).1 = (tick (tickN n s)).1 := by
  induction n generalizing s with
  | zero => rfl
  | succ k ih => exact ih (tick s).1

theorem tickN_add (a b : Nat) (s : TimerState) :
    tickN (a + b) s = tickN b (tickN a s) := by
  induction b generalizing s with
  | zero => rfl
  | succ k ih =>
      show tickN (a + k) (tick s).1 = tickN k (tick (tickN a s)).1
      rw [← tickN_tick_comm a s]
      exact ih (tick s).1

/-- Reachability is preserved along a run of ticks. -/
theorem reachable_tickN {s : TimerState} (n : Nat) (h : Reachable s) :
    Reachable (tickN n s) := by
  induction n generalizing s with
  | zero => exact h
  | succ k ih => exact ih (Reachable.tickStep h)

theorem run_add (a b : Nat) (s : TimerState) :
    run (a + b) s
      = ((run b (run a s).1).1, (run a s).2 ++ (run b (run a s).1).2) := by
  induction a generalizing s with
  | zero =>
      rw [Nat.zero_add]
      show run b s = ((run b s).1, [] ++ (run b s).2)
      rw [List.nil_append]
  | succ k ih =>
      have e : k + 1 + b = (k + b) + 1 := by omega
      rw [e, run_succ, ih (tick s).1, run_succ]
      simp [List.append_assoc]

/-- The outcome of the awaited `fetch('/api/focus', ...)` POST inside the
session recorder (src/unnamed/part_000 line 210): the promise either
resolves, or rejects with an error. -/
abbrev FetchOutcome : Type := Except String Unit

/-- Models `handleFocusSessionComplete` (src/unnamed/part_000 lines 208-218):
the fetch is awaited inside `try ... catch (error) { console.error(...) }`,
so a rejected persistence call is caught and logged and the async function
resolves normally in every case; nothing propagates back to the caller.
The returned value is what the caller of `onSessionComplete` observes for
the given fetch outcome. -/
def handleFocusSessionComplete (fetchFocus : FetchOutcome)
    (_duration : Int) (_tp : Mode) : Except String Unit :=
  match fetchFocus with
  | Except.ok _ => Except.ok ()
  | Except.error _ => Except.ok ()

theorem handleFocusSessionComplete_ok (o : FetchOutcome) (d : Int) (m : Mode) :
    handleFocusSessionComplete o d m = Except.ok () := by
  cases o <;> rfl

/-- The state component of the effect does not depend on the completion
callback the component was given. -/
theorem runEffectWith_fst {α β : Type} (f : Int → Mode → α)
    (g : Int → Mode → β) (s : TimerState) :
    (runEffectWith f s).1 = (runEffectWith g s).1 := by
  rcases s with ⟨t, a, m⟩
  cases m <;> (unfold runEffectWith; split_ifs <;> rfl)

/-- The events of the effect under callback `cb` are the observed events
with `cb` applied. -/
theorem runEffectWith_snd {α : Type} (cb : Int → Mode → α) (s : TimerState) :
    (runEffectWith cb s).2 = (runEffect s).2.map (fun p => cb p.1 p.2) := by
  rcases s with ⟨t, a, m⟩
  cases m <;> (unfold runEffect runEffectWith; split_ifs <;> rfl)

theorem tickWith_fst {α β : Type} (f : Int → Mode → α) (g : Int → Mode → β)
    (s : TimerState) : (tickWith f s).1 = (tickWith g s).1 := by
  unfold tickWith
  split_ifs
  · exact runEffectWith_fst f g _
  · rfl

theorem tickWith_snd {α : Type} (cb : Int → Mode → α) (s : TimerState) :
    (tickWith cb s).2 = (tick s).2.map (fun p => cb p.1 p.2) := by
  unfold tick tickWith
  split_ifs
  · exact runEffectWith_snd cb _
  · rfl

/-- The error value of the spec's Timer Engine error taxonomy. -/
inductive TimerError : Type where
  | invalidModeError : TimerError
deriving DecidableEq, Repr

/-- Modelled from the spec: src/ exposes mode selection only through the two
buttons hard-wired to the literals `'work'` and `'break'` (src/unnamed/
part_000 lines 871-884), and the TS union type of `sessionType` (line 830)
excludes any other argument statically, so a runtime `selectMode(m)` over an
arbitrary argument, and the `InvalidModeError` classification of the spec's
error taxonomy, have no code in the repository.  Faithful to the spec's
words: an argument outside the set of the strings `work` and `break` fails
with `InvalidModeError` and leaves the state unchanged (third component:
the reported error, if any); a valid argument dispatches to the source's
button behaviour `selectMode`. -/
def selectModeChecked (m : String) (s : TimerState) :
    TimerState × List Event × Option TimerError :=
  if m = "work" then
    ((selectMode Mode.work s).1, (selectMode Mode.work s).2, none)
  else if m = "break" then
    ((selectMode Mode.brk s).1, (selectMode Mode.brk s).2, none)
  else (s, [], some TimerError.invalidModeError)

/-- Claim C1: in every reachable state the timer has at least one second
left — `remaining_seconds` never rests at 0, so no tick or re-render ever
sees a lingering zero — a re-run of the effect (a re-render) changes
nothing and emits no event, and a tick emits exactly one completion event
precisely when it transitions `remaining_seconds` from 1 to 0 while the
timer is running, and no event otherwise. -/
theorem claim_C1_onComplete_exactly_once (s : TimerState) (h : Reachable s) :
    1 ≤ s.timeLeft ∧ runEffect s = (s, []) ∧
      (tick s).2.length
        = (if s.isActive = true ∧ s.timeLeft = 1 then 1 else 0) := by
  obtain ⟨hl, hu⟩ := reachable_inv h
  refine ⟨hl, runEffectWith_pos _ _ (by omega), ?_⟩
  by_cases ha : s.isActive = true
  · by_cases h1 : s.timeLeft = 1
    · rw [tick, tickWith_complete Prod.mk s ha h1, if_pos ⟨ha, h1⟩]
      cases hm : s.sessionType <;> rfl
    · rw [tick, tickWith_decr Prod.mk s ha (by omega), if_neg (by tauto)]
      rfl
  · rw [tick, tickWith_noop Prod.mk s (by tauto), if_neg (by tauto)]
    rfl

/-- Claim C1 witness: the theorem applied to the initial state. -/
theorem claim_C1_witness :
    1 ≤ initState.timeLeft ∧ runEffect initState = (initState, []) ∧
      (tick initState).2.length
        = (if initState.isActive = true ∧ initState.timeLeft = 1
            then 1 else 0) :=
  claim_C1_onComplete_exactly_once initState Reachable.init

/-- Claim C2: from the running WORK state at 1500 seconds, 1500 ticks emit
the single completion event `(25, WORK)` and land in the idle BREAK state
at 300 seconds; dually, from the running BREAK state at 300 seconds, 300
ticks emit the single event `(5, BREAK)` and land in the idle WORK state at
1500 seconds. -/
theorem claim_C2_full_sessions :
    run 1500 { timeLeft := 1500, isActive := true, sessionType := Mode.work }
        = ({ timeLeft := 300, isActive := false, sessionType := Mode.brk },
            [(25, Mode.work)]) ∧
      run 300 { timeLeft := 300, isActive := true, sessionType := Mode.brk }
        = ({ timeLeft := 1500, isActive := false, sessionType := Mode.work },
            [(5, Mode.brk)]) := by
  have hw : run 1499
      ({ timeLeft := 1500, isActive := true, sessionType := Mode.work }
        : TimerState)
      = ({ timeLeft := 1, isActive := true, sessionType := Mode.work },
          []) := by
    rw [run_noComplete 1499 _ rfl (by norm_num)]
    norm_num
  have hb : run 299
      ({ timeLeft := 300, isActive := true, sessionType := Mode.brk }
        : TimerState)
      = ({ timeLeft := 1, isActive := true, sessionType := Mode.brk },
          []) := by
    rw [run_noComplete 299 _ rfl (by norm_num)]
    norm_num
  have hw1 : run 1
      ({ timeLeft := 1, isActive := true, sessionType := Mode.work }
        : TimerState)
      = ({ timeLeft := 300, isActive := false, sessionType := Mode.brk },
          [(25, Mode.work)]) := by decide
  have hb1 : run 1
      ({ timeLeft := 1, isActive := true, sessionType := Mode.brk }
        : TimerState)
      = ({ timeLeft := 1500, isActive := false, sessionType := Mode.work },
          [(5, Mode.brk)]) := by decide
  constructor
  · rw [(by norm_num : (1500 : Nat) = 1499 + 1), run_add, hw]
    simp [hw1]
  · rw [(by norm_num : (300 : Nat) = 299 + 1), run_add, hb]
    simp [hb1]

/-- Claim C3: every reachable state, and every state along any run of ticks
from it, keeps `remaining_seconds` between 0 and the current mode's
`total_seconds`; and along any run of ticks, as long as the timer is still
running, `remaining_seconds` is monotonically non-increasing. -/
theorem claim_C3_bounds_monotone (s : TimerState) (i j : Nat)
    (h : Reachable s) (hij : i ≤ j) :
    (0 ≤ (tickN i s).timeLeft ∧
      (tickN i s).timeLeft ≤ totalSeconds (tickN i s).sessionType) ∧
      ((tickN j s).isActive = true →
        (tickN j s).timeLeft ≤ (tickN i s).timeLeft) := by
  obtain ⟨hl, hu⟩ := reachable_inv (reachable_tickN i h)
  refine ⟨⟨by omega, hu⟩, ?_⟩
  intro hact
  have e : j = i + (j - i) := by omega
  rw [e, tickN_add] at hact ⊢
  exact (tickN_mono (j - i) (tickN i s) hact).2

/-- Claim C3 witness: the theorem applied to the running WORK state reached
by one press from the initial state, with one and two further ticks. -/
theorem claim_C3_witness :
    (0 ≤ (tickN 1 (⟨1500, true, Mode.work⟩ : TimerState)).timeLeft ∧
      (tickN 1 (⟨1500, true, Mode.work⟩ : TimerState)).timeLeft
        ≤ totalSeconds
            (tickN 1 (⟨1500, true, Mode.work⟩ : TimerState)).sessionType) ∧
      ((tickN 2 (⟨1500, true, Mode.work⟩ : TimerState)).isActive = true →
        (tickN 2 (⟨1500, true, Mode.work⟩ : TimerState)).timeLeft
          ≤ (tickN 1 (⟨1500, true, Mode.work⟩ : TimerState)).timeLeft) :=
  claim_C3_bounds_monotone _ 1 2
    (by exact Reachable.press Reachable.init) (by norm_num)

/-- Claim C4: whatever the prior state — including a running countdown of
the other mode — selecting a mode lands in that mode's idle state at the
mode's full duration with the timer stopped, and `total_seconds` is the
mode's duration. -/
theorem claim_C4_selectMode (s : TimerState) :
    selectMode Mode.brk s
        = ({ timeLeft := 300, isActive := false, sessionType := Mode.brk },
            [])
      ∧ totalSeconds Mode.brk = 300
      ∧ selectMode Mode.work s
        = ({ timeLeft := 1500, isActive := false,
             sessionType := Mode.work }, [])
      ∧ totalSeconds Mode.work = 1500 := by
  refine ⟨?_, by norm_num [totalSeconds], ?_, by norm_num [totalSeconds]⟩ <;>
    rw [selectMode_eq] <;> norm_num [totalSeconds]

/-- Claim C5 counterexample: in the code the start control is the single
toggle button, and pressing it in a state with `remaining_seconds = 0` is
not a no-op — the effect's completion branch fires, emits a completion
event and auto-advances to the idle BREAK state — so a start at
`remaining_seconds = 0` does not leave the state unchanged. -/
theorem claim_C5_counterexample :
    pressStartPause (⟨0, false, Mode.work⟩ : TimerState)
        ≠ ((⟨0, false, Mode.work⟩ : TimerState), ([] : List Event)) ∧
      pressStartPause (⟨0, false, Mode.work⟩ : TimerState)
        = ((⟨300, false, Mode.brk⟩ : TimerState), [(25, Mode.work)]) := by
  decide

/-- Claim C5 amended: pressing the start/pause control in an idle reachable
state starts the countdown — only `running` flips to true, `mode` and
`remaining_seconds` are unchanged and nothing is emitted — and every
reachable state has `remaining_seconds > 0`, so the
`remaining_seconds == 0` edge case never arises in a run (on an artificial
zero state the press would instead fire the completion branch, and a press
while running pauses, the control being a toggle). -/
theorem claim_C5_amended (s : TimerState) (h : Reachable s)
    (hidle : s.isActive = false) :
    0 < s.timeLeft ∧ pressStartPause s = ({ s with isActive := true }, []) := by
  obtain ⟨hl, hu⟩ := reachable_inv h
  refine ⟨by omega, ?_⟩
  rw [press_eq s (by omega), hidle]
  rfl

/-- Claim C5 witness: the amended theorem applied to the initial state. -/
theorem claim_C5_witness :
    0 < initState.timeLeft ∧
      pressStartPause initState = ({ initState with isActive := true }, []) :=
  claim_C5_amended initState Reachable.init rfl

/-- Claim C6: pressing pause in a running reachable state flips only
`running` to false — `remaining_seconds`, `mode` (and with it
`total_seconds`) are preserved, nothing is emitted — and a stray tick
delivered in the paused state is a complete no-op: it mutates nothing and
emits nothing. -/
theorem claim_C6_pause_frame (s : TimerState) (h : Reachable s)
    (hrun : s.isActive = true) :
    pressStartPause s = ({ s with isActive := false }, []) ∧
      tick { s with isActive := false } = ({ s with isActive := false }, []) := by
  obtain ⟨hl, hu⟩ := reachable_inv h
  constructor
  · rw [press_eq s (by omega), hrun]
    rfl
  · exact tickWith_noop Prod.mk _ (by simp)

/-- Claim C6 witness: the theorem applied to the claim's scenario — the
state after start() and one tick() from the initial state, which has
`remaining_seconds = 1499`; pausing keeps 1499 and the stray tick leaves
the paused state untouched. -/
theorem claim_C6_witness :
    pressStartPause (⟨1499, true, Mode.work⟩ : TimerState)
        = ((⟨1499, false, Mode.work⟩ : TimerState), []) ∧
      tick (⟨1499, false, Mode.work⟩ : TimerState)
        = ((⟨1499, false, Mode.work⟩ : TimerState), []) :=
  claim_C6_pause_frame ⟨1499, true, Mode.work⟩
    (by exact Reachable.tickStep (Reachable.press Reachable.init)) rfl

/-- Claim C7: the countdown's evolution is independent of the session
recorder's persistence outcome — with `onSessionComplete` bound to
`handleFocusSessionComplete`, a tick reaches exactly the same timer state
when the POST fails as when it succeeds (the same state plain `tick`
reaches), and every value the recorder hands back is a normal resolution:
no error ever propagates back into the countdown. -/
theorem claim_C7_persistence_isolated (o : FetchOutcome) (s : TimerState) :
    (tickWith (handleFocusSessionComplete o) s).1
        = (tickWith (handleFocusSessionComplete (Except.ok ())) s).1 ∧
      (tickWith (handleFocusSessionComplete o) s).1 = (tick s).1 ∧
      (tickWith (handleFocusSessionComplete o) s).2
        = (tick s).2.map (fun _ => Except.ok ()) := by
  refine ⟨tickWith_fst _ _ s, tickWith_fst _ _ s, ?_⟩
  rw [tickWith_snd]
  exact List.map_congr_left (fun p _ => handleFocusSessionComplete_ok o p.1 p.2)

/-- Claim C7 witness: the theorem applied to a failed POST and the running
WORK state one second from completion. -/
theorem claim_C7_witness :
    (tickWith (handleFocusSessionComplete (Except.error "network"))
          (⟨1, true, Mode.work⟩ : TimerState)).1
        = (tickWith (handleFocusSessionComplete (Except.ok ()))
            (⟨1, true, Mode.work⟩ : TimerState)).1 ∧
      (tickWith (handleFocusSessionComplete (Except.error "network"))
          (⟨1, true, Mode.work⟩ : TimerState)).1
        = (tick (⟨1, true, Mode.work⟩ : TimerState)).1 ∧
      (tickWith (handleFocusSessionComplete (Except.error "network"))
          (⟨1, true, Mode.work⟩ : TimerState)).2
        = (tick (⟨1, true, Mode.work⟩ : TimerState)).2.map
            (fun _ => Except.ok ()) :=
  claim_C7_persistence_isolated (Except.error "network") ⟨1, true, Mode.work⟩

/-- Claim C8: for every argument outside the strings `work` and `break`,
the checked mode selection reports `InvalidModeError`, emits nothing, and
returns the state unchanged. -/
theorem claim_C8_invalid_mode (m : String) (s : TimerState)
    (hw : m ≠ "work") (hb : m ≠ "break") :
    selectModeChecked m s = (s, [], some TimerError.invalidModeError) := by
  rw [selectModeChecked, if_neg hw, if_neg hb]

/-- Claim C8 witness: the theorem applied to the argument `lunch` and the
initial state. -/
theorem claim_C8_witness :
    selectModeChecked "lunch" initState
      = (initState, [], some TimerError.invalidModeError) :=
  claim_C8_invalid_mode "lunch" initState (by decide) (by decide)

/-- Claim C4 witness: the theorem applied to the running BREAK state with
100 seconds remaining, the claim's scenario. -/
theorem claim_C4_witness :
    selectMode Mode.brk
        ({ timeLeft := 100, isActive := true, sessionType := Mode.brk }
          : TimerState)
        = ({ timeLeft := 300, isActive := false, sessionType := Mode.brk },
            [])
      ∧ totalSeconds Mode.brk = 300
      ∧ selectMode Mode.work
          ({ timeLeft := 100, isActive := true, sessionType := Mode.brk }
            : TimerState)
          = ({ timeLeft := 1500, isActive := false,
               sessionType := Mode.work }, [])
      ∧ totalSeconds Mode.work = 1500 :=
  claim_C4_selectMode
    { timeLeft := 100, isActive := true, sessionType := Mode.brk }

/-- A row of the `tasks` table (src/server.ts lines 14-22).  `created_at`
is a `DATETIME DEFAULT CURRENT_TIMESTAMP` text whose lexicographic order
is chronological; it is modelled as an integer timestamp. -/
structure TaskRow : Type where
  id : Int
  title : String
  description : String
  priority : String
  status : String
  due_date : String
  created_at : Int
deriving DecidableEq, Repr

/-- The request body of `PATCH /api/tasks/:id` as destructured at server.ts
line 98: `const { status, priority } = req.body`; an absent (or `null`)
field is `none`. -/
structure TaskPatch : Type where
  status : Option String
  priority : Option String
deriving DecidableEq, Repr

/-- The effect on one row of `UPDATE tasks SET status = ? WHERE id = ?`
(server.ts line 99). -/
def setStatus (pid : Int) (v : String) (r : TaskRow) : TaskRow :=
  if r.id = pid then { r with status := v } else r

/-- The effect on one row of `UPDATE tasks SET priority = ? WHERE id = ?`
(server.ts line 100). -/
def setPriority (pid : Int) (v : String) (r : TaskRow) : TaskRow :=
  if r.id = pid then { r with priority := v } else r

/-- The handler of `PATCH /api/tasks/:id` (server.ts lines 97-102):
`if (status)` guards the status UPDATE and `if (priority)` the priority
UPDATE — JS truthiness, so an absent field or the empty string skips the
UPDATE — and the response body is `{ success: true }`. -/
def patchTask (store : List TaskRow) (pid : Int) (body : TaskPatch) :
    List TaskRow × Bool :=
  let s1 := match body.status with
    | some v => if v = "" then store else store.map (setStatus pid v)
    | none => store
  let s2 := match body.priority with
    | some v => if v = "" then s1 else s1.map (setPriority pid v)
    | none => s1
  (s2, true)

/-- A row of the `lectures` table (src/server.ts lines 24-31). -/
structure LectureRow : Type where
  id : Int
  subject : String
  topic : String
  attendance_status : String
  date : String
  completed : Int
deriving DecidableEq, Repr

/-- The effect on one row of
`UPDATE lectures SET attendance_status = ? WHERE id = ?`
(server.ts line 118). -/
def setAttendance (pid : Int) (v : String) (r : LectureRow) : LectureRow :=
  if r.id = pid then { r with attendance_status := v } else r

/-- The handler of `PATCH /api/lectures/:id` (server.ts lines 116-120): the
single UPDATE binds `attendance_status` from the body unconditionally and
the response is `{ success: true }`; when the field is absent the driver
rejects the `undefined` binding, the request fails and no row changes (and
no success flag is sent). -/
def patchLecture (store : List LectureRow) (pid : Int)
    (attendance_status : Option String) : List LectureRow × Bool :=
  match attendance_status with
  | some v => (store.map (setAttendance pid v), true)
  | none => (store, false)

/-- The per-row merge-patch specification of a task patch: the columns the
request cannot supply (`id`, `title`, `description`, `due_date`,
`created_at`) are preserved; `status` and `priority` are each overwritten
exactly on the target row when the request supplies a truthy (non-empty)
value for them, and keep their old value when the field is absent or falsy;
and a row whose `id` is not the target is untouched entirely. -/
def TaskMergePatch (pid : Int) (body : TaskPatch) (r r' : TaskRow) : Prop :=
  r'.id = r.id ∧ r'.title = r.title ∧ r'.description = r.description ∧
    r'.due_date = r.due_date ∧ r'.created_at = r.created_at ∧
    r'.status = (match body.status with
      | some v => if r.id = pid ∧ ¬v = "" then v else r.status
      | none => r.status) ∧
    r'.priority = (match body.priority with
      | some v => if r.id = pid ∧ ¬v = "" then v else r.priority
      | none => r.priority) ∧
    (r.id ≠ pid → r' = r)

/-- The per-row merge-patch specification of a lecture patch with supplied
value `v`: every column other than `attendance_status` is preserved,
`attendance_status` becomes `v` exactly on the target row, and a row whose
`id` is not the target is untouched entirely. -/
def LectureMergePatch (pid : Int) (v : String) (r r' : LectureRow) : Prop :=
  r'.id = r.id ∧ r'.subject = r.subject ∧ r'.topic = r.topic ∧
    r'.date = r.date ∧ r'.completed = r.completed ∧
    r'.attendance_status = (if r.id = pid then v else r.attendance_status) ∧
    (r.id ≠ pid → r' = r)

theorem forall₂_map_of {α : Type} (P : α → α → Prop) (f : α → α)
    (h : ∀ a, P a (f a)) : ∀ l : List α, List.Forall₂ P l (l.map f)
  | [] => List.Forall₂.nil
  | a :: t => List.Forall₂.cons (h a) (forall₂_map_of P f h t)

/-- The action of the guarded status UPDATE (server.ts line 99) on one
row: `if (status)` skips it when the field is absent or the empty string
(JS truthiness). -/
def applyStatus (pid : Int) (st : Option String) (r : TaskRow) : TaskRow :=
  match st with
  | some v => if v = "" then r else setStatus pid v r
  | none => r

/-- The action of the guarded priority UPDATE (server.ts line 100) on one
row, with the same truthiness guard. -/
def applyPriority (pid : Int) (pr : Option String) (r : TaskRow) : TaskRow :=
  match pr with
  | some v => if v = "" then r else setPriority pid v r
  | none => r

theorem applyStatus_eq (pid : Int) (st : Option String) (r : TaskRow) :
    applyStatus pid st r
      = { r with status := match st with
            | some v => if r.id = pid ∧ ¬v = "" then v else r.status
            | none => r.status } := by
  cases st with
  | none => rfl
  | some v =>
      by_cases hv : v = ""
      · simp [applyStatus, hv]
      · unfold applyStatus setStatus
        by_cases h : r.id = pid
        · simp [hv, h]
        · simp [hv, h]

theorem applyPriority_eq (pid : Int) (pr : Option String) (r : TaskRow) :
    applyPriority pid pr r
      = { r with priority := match pr with
            | some v => if r.id = pid ∧ ¬v = "" then v else r.priority
            | none => r.priority } := by
  cases pr with
  | none => rfl
  | some v =>
      by_cases hv : v = ""
      · simp [applyPriority, hv]
      · unfold applyPriority setPriority
        by_cases h : r.id = pid
        · simp [hv, h]
        · simp [hv, h]

/-- The handler's two guarded whole-table UPDATEs act on each row as the
composition of the two guarded row actions. -/
theorem patchTask_fst (store : List TaskRow) (pid : Int) (body : TaskPatch) :
    (patchTask store pid body).1
      = store.map (fun r =>
          applyPriority pid body.priority (applyStatus pid body.status r)) := by
  rcases body with ⟨st, pr⟩
  unfold patchTask applyStatus applyPriority
  cases st with
  | none =>
      cases pr with
      | none => simp
      | some w =>
          by_cases hw : w = "" <;> simp [hw]
  | some v =>
      cases pr with
      | none =>
          by_cases hv : v = "" <;> simp [hv]
      | some w =>
          by_cases hv : v = "" <;> by_cases hw : w = "" <;>
            simp [hv, hw, List.map_map, Function.comp]

theorem taskMergePatch_row (pid : Int) (body : TaskPatch) (r : TaskRow) :
    TaskMergePatch pid body r
      (applyPriority pid body.priority (applyStatus pid body.status r)) := by
  rcases body with ⟨st, pr⟩
  dsimp only
  rw [applyStatus_eq, applyPriority_eq]
  refine ⟨rfl, rfl, rfl, rfl, rfl, rfl, rfl, ?_⟩
  intro hne
  cases st <;> cases pr <;> simp [hne]

theorem lectureMergePatch_row (pid : Int) (v : String) (r : LectureRow) :
    LectureMergePatch pid v r (setAttendance pid v r) := by
  unfold LectureMergePatch setAttendance
  by_cases h : r.id = pid
  · simp [h]
  · simp [h]

/-- Claim C9: a task patch and a lecture patch follow merge-patch
semantics row for row and return the success flag: the columns the request
cannot supply (`id`, `title`, `description`, `due_date`, `created_at` for
tasks; `id`, `subject`, `topic`, `date`, `completed` for lectures) keep
their values; a field the request does not supply — `status` or `priority`
absent from a task patch — keeps its old value, a supplied truthy value
overwrites exactly the target row (the handler's JS truthiness also skips
an explicit empty string), the supplied lecture `attendance_status`
becomes the new value exactly on the target row, and rows other than the
target are untouched entirely. -/
theorem claim_C9_merge_patch (store : List TaskRow) (pid : Int)
    (body : TaskPatch) (lstore : List LectureRow) (lid : Int) (v : String) :
    (patchTask store pid body).2 = true ∧
      List.Forall₂ (TaskMergePatch pid body) store (patchTask store pid body).1 ∧
      (patchLecture lstore lid (some v)).2 = true ∧
      List.Forall₂ (LectureMergePatch lid v) lstore
        (patchLecture lstore lid (some v)).1 := by
  refine ⟨rfl, ?_, rfl, ?_⟩
  · rw [patchTask_fst]
    exact forall₂_map_of _ _ (taskMergePatch_row pid body) store
  · exact forall₂_map_of _ _ (lectureMergePatch_row lid v) lstore

/-- Claim C9 witness: the theorem applied to a one-row task store patched
with a new status and no priority field — the relation then pins the row:
status overwritten, priority and all other columns preserved — and a
one-row lecture store patched with a new attendance status. -/
theorem claim_C9_witness :
    (patchTask [⟨1, "essay", "draft", "high", "todo", "2025-01-01", 10⟩] 1
        ⟨some "done", none⟩).2 = true ∧
      List.Forall₂ (TaskMergePatch 1 ⟨some "done", none⟩)
        [⟨1, "essay", "draft", "high", "todo", "2025-01-01", 10⟩]
        (patchTask [⟨1, "essay", "draft", "high", "todo", "2025-01-01", 10⟩] 1
          ⟨some "done", none⟩).1 ∧
      (patchLecture [⟨1, "maths", "limits", "", "2025-01-02", 0⟩] 1
        (some "present")).2 = true ∧
      List.Forall₂ (LectureMergePatch 1 "present")
        [⟨1, "maths", "limits", "", "2025-01-02", 0⟩]
        (patchLecture [⟨1, "maths", "limits", "", "2025-01-02", 0⟩] 1
          (some "present")).1 :=
  claim_C9_merge_patch
    [⟨1, "essay", "draft", "high", "todo", "2025-01-01", 10⟩] 1
    ⟨some "done", none⟩
    [⟨1, "maths", "limits", "", "2025-01-02", 0⟩] 1 "present"

/-- The descending `created_at` order of `ORDER BY created_at DESC`
(server.ts line 85). -/
def createdDesc (a b : TaskRow) : Prop :=
  b.created_at ≤ a.created_at

instance : DecidableRel createdDesc :=
  fun a b => inferInstanceAs (Decidable (b.created_at ≤ a.created_at))

instance : IsTotal TaskRow createdDesc :=
  ⟨fun a b => le_total b.created_at a.created_at⟩

instance : IsTrans TaskRow createdDesc :=
  ⟨fun _ _ _ hab hbc => le_trans hbc hab⟩

/-- The handler of `GET /api/tasks` (server.ts lines 84-87):
`SELECT * FROM tasks ORDER BY created_at DESC` returns every row of the
table sorted by `created_at` descending; the SQL ordering is modelled by
an insertion sort under `createdDesc`. -/
def getTasks (store : List TaskRow) : List TaskRow :=
  List.insertionSort createdDesc store

/-- Claim C10: listing tasks returns all task rows — a permutation of the
store — sorted by `created_at` in descending order, most recently created
first. -/
theorem claim_C10_tasks_sorted (store : List TaskRow) :
    List.Perm (getTasks store) store ∧
      List.Sorted createdDesc (getTasks store) :=
  ⟨List.perm_insertionSort createdDesc store,
    List.sorted_insertionSort createdDesc store⟩

/-- Claim C10 witness: the theorem applied to a three-row store given in
ascending creation order. -/
theorem claim_C10_witness :
    List.Perm
        (getTasks [⟨1, "a", "", "low", "todo", "", 10⟩,
          ⟨2, "b", "", "low", "todo", "", 20⟩,
          ⟨3, "c", "", "low", "todo", "", 30⟩])
        [⟨1, "a", "", "low", "todo", "", 10⟩,
          ⟨2, "b", "", "low", "todo", "", 20⟩,
          ⟨3, "c", "", "low", "todo", "", 30⟩] ∧
      List.Sorted createdDesc
        (getTasks [⟨1, "a", "", "low", "todo", "", 10⟩,
          ⟨2, "b", "", "low", "todo", "", 20⟩,
          ⟨3, "c", "", "low", "todo", "", 30⟩]) :=
  claim_C10_tasks_sorted
    [⟨1, "a", "", "low", "todo", "", 10⟩,
      ⟨2, "b", "", "low", "todo", "", 20⟩,
      ⟨3, "c", "", "low", "todo", "", 30⟩]

end EasySchedule
